import Mathlib

/-!
# Verification of the isg-guardian health-tracking and crash-forensics core

A shallow embedding, in Lean, of the pure decision logic of the two core
modules of the repository:

* `src/logger.py` — `CrashLogger`: crash-type classification
  (`_detect_crash_type`), crash-artifact capture (`capture_crash_logs`),
  retention sweep (`_cleanup_old_logs`), statistics
  (`get_crash_statistics`).
* `src/monitor.py` — `ProcessMonitor` and the `AppStatus` dataclass:
  process census evaluation (`check_app_status`), running-status
  construction (`_get_running_status`), memory parsing
  (`_get_memory_usage`).

Effectful boundaries (adb subprocess calls, the filesystem, wall-clock
reads) are modelled as explicit inputs: every subprocess result is a
`CmdResult` value handed to the function, the artifact directory is an
explicit association list threaded through the capture functions, and
each `datetime.now()` read of a poll tick is a `Nat` second count passed
in.  Python exceptions that a function catches and swallows are modelled
by explicit failure flags or by the sentinel values the handler produces,
exactly where the `try`/`except` blocks sit in the source.
-/

namespace ISGGuardian

/-! ## String helpers

Python's `in` substring test, `str.upper`, `str.split()` (whitespace),
`str.split('\n')`, `str.strip`, `str.isdigit`, modelled on Lean strings.
-/

/-- `strStarts needle hay`: `hay` begins with `needle` (character lists). -/
def strStarts : List Char → List Char → Bool
  | [], _ => true
  | _ :: _, [] => false
  | a :: as, b :: bs => a == b && strStarts as bs

/-- Substring search over character lists: Python's `needle in hay`. -/
def subSearch (needle : List Char) : List Char → Bool
  | [] => needle.isEmpty
  | c :: cs => strStarts needle (c :: cs) || subSearch needle cs

/-- `hasSub hay needle`: Python's `needle in hay` on strings. -/
def hasSub (hay needle : String) : Bool :=
  subSearch needle.data hay.data

/-- Python's `str.upper()` for ASCII text, as a character-wise map (kept
as an explicit list map so that terms reduce). -/
def upperStr (s : String) : String :=
  String.mk (s.data.map Char.toUpper)

/-- Split a character list at every character satisfying `p`, keeping the
(possibly empty) pieces between separators. -/
def splitPred (p : Char → Bool) : List Char → List (List Char)
  | [] => [[]]
  | x :: xs =>
    let r := splitPred p xs
    if p x then [] :: r
    else
      match r with
      | [] => [[x]]
      | h :: t => (x :: h) :: t

/-- Python's `str.split('\n')`: pieces between newline characters, empty
pieces kept (`"".split('\n') == [""]`). -/
def splitNl (s : String) : List String :=
  (splitPred (fun c => c == '\n') s.data).map String.mk

/-- Python's `str.split()` with no argument: split on whitespace,
dropping empty pieces. -/
def splitWs (s : String) : List String :=
  ((splitPred Char.isWhitespace s.data).map String.mk).filter (fun p => p ≠ "")

/-- Python's `str.strip()`: drop whitespace from both ends. -/
def pyStrip (s : String) : String :=
  String.mk (((s.data.dropWhile Char.isWhitespace).reverse.dropWhile Char.isWhitespace).reverse)

/-- Python's `str.isdigit()` for ASCII: nonempty and all digits. -/
def pyIsDigit (s : String) : Bool :=
  s ≠ "" && s.data.all Char.isDigit

/-- Python's `int(...)` on a string of ASCII digits. -/
def digitsVal (l : List Char) : Nat :=
  l.foldl (fun acc c => acc * 10 + (c.toNat - 48)) 0

/-- Python's `str.startswith(pre)`. -/
def strStartsWith (s pre : String) : Bool :=
  strStarts pre.data s.data

/-! ## `CrashLogger._detect_crash_type` (src/logger.py lines 199–227) -/

/-- Embeds `CrashLogger._detect_crash_type(logs)`.  `logs` is the list of
diagnostic lines; the source joins them with `'\n'`, uppercases, and runs
an ordered chain of substring tests; an empty list short-circuits to
`"process_missing"`. -/
def detectCrashType (logs : List String) : String :=
  if logs.isEmpty then "process_missing"
  else
    let log_text := upperStr (String.intercalate "\n" logs)
    if hasSub log_text "FATAL EXCEPTION" then "fatal_exception"
    else if hasSub log_text "ANR" || hasSub log_text "APPLICATION NOT RESPONDING" then "anr"
    else if hasSub log_text "OUTOFMEMORYERROR" then "oom"
    else if hasSub log_text "SIGNAL" && hasSub log_text "SIGSEGV" then "native_crash"
    else if hasSub log_text "SIGABRT" then "abort"
    else if hasSub log_text "SIGKILL" then "killed"
    else "unknown"

/-- A rule's matching condition in the spec's ordered severity list:
one pattern, either of two patterns, or both of two patterns. -/
inductive Cond where
  | one (p : String)
  | anyOf (p q : String)
  | both (p q : String)

/-- Case-insensitive evaluation of a condition against (already
uppercased) diagnostic text. -/
def evalCond : Cond → String → Bool
  | .one p, t => hasSub t p
  | .anyOf p q, t => hasSub t p || hasSub t q
  | .both p q, t => hasSub t p && hasSub t q

/-- The spec's ordered severity list (§4.2 of the design document). -/
def severityRules : List (Cond × String) :=
  [ (.one "FATAL EXCEPTION", "fatal_exception"),
    (.anyOf "ANR" "APPLICATION NOT RESPONDING", "anr"),
    (.one "OUTOFMEMORYERROR", "oom"),
    (.both "SIGNAL" "SIGSEGV", "native_crash"),
    (.one "SIGABRT", "abort"),
    (.one "SIGKILL", "killed") ]

/-- First-match-wins over an ordered rule list; falls through to
`"unknown"`. -/
def firstMatch : List (Cond × String) → String → String
  | [], _ => "unknown"
  | (c, lab) :: rs, t => if evalCond c t then lab else firstMatch rs t

/-- Classification as the spec words it: empty input is
`"process_missing"`; otherwise first-match-wins over the ordered severity
list, case-insensitive substring search over the concatenated text. -/
def specClassify (logs : List String) : String :=
  if logs.isEmpty then "process_missing"
  else firstMatch severityRules (upperStr (String.intercalate "\n" logs))

/-! ## `CrashLogger._cleanup_old_logs` (src/logger.py lines 242–273)

The sweep works on the directory listing of `crash_*.log` files; only each
file's identity and its `st_mtime` matter.  We model an artifact as a
value with a modification time given by a projection `key`, mirroring
`log_files.sort(key=lambda x: x.stat().st_mtime, reverse=True)`.
Timestamps are second counts (`Nat`); `timedelta(days=d)` is `d * 86400`
seconds, and `cutoff_time = now - retention_days`.
-/

/-- Insert into a list sorted newest-first, stably (ties keep the earlier
element first), by the `key` projection — one step of the stable
descending sort Python's `list.sort(key=..., reverse=True)` performs. -/
def insertDesc {α : Type} (key : α → Nat) (x : α) : List α → List α
  | [] => [x]
  | y :: ys => if key y ≤ key x then x :: y :: ys else y :: insertDesc key x ys

/-- Stable sort, newest (largest key) first: the embedding of
`log_files.sort(key=lambda x: x.stat().st_mtime, reverse=True)`. -/
def sortDesc {α : Type} (key : α → Nat) : List α → List α
  | [] => []
  | x :: xs => insertDesc key x (sortDesc key xs)

/-- `cutoff_time = datetime.now() - timedelta(days=retention_days)`,
in seconds (truncated at zero, as `Nat` subtraction). -/
def cutoffTime (now retention_days : Nat) : Nat :=
  now - retention_days * 86400

/-- The files `_cleanup_old_logs` deletes: everything beyond the
`max_files` newest (`log_files[max_files:]` after the descending sort),
then, among the retained prefix (`log_files[:max_files]`), every file
whose modification time is strictly before the cutoff. -/
def cleanupDeleted {α : Type} (key : α → Nat)
    (files : List α) (max_files retention_days now : Nat) : List α :=
  let sorted := sortDesc key files
  let cutoff := cutoffTime now retention_days
  sorted.drop max_files ++ (sorted.take max_files).filter (fun f => key f < cutoff)

/-- The files surviving a `_cleanup_old_logs` sweep: the `max_files`
newest, minus those older than the retention cutoff. -/
def cleanupKept {α : Type} (key : α → Nat)
    (files : List α) (max_files retention_days now : Nat) : List α :=
  ((sortDesc key files).take max_files).filter
    (fun f => ¬ key f < cutoffTime now retention_days)

/-- A crash artifact as the retention sweep sees it: a file name and its
`st_mtime` in seconds. -/
structure ArtifactFile where
  name : String
  mtime : Nat
  deriving DecidableEq, Repr

/-- `mtime`-rank of a file within a listing: how many files in the
listing were modified strictly later.  With distinct modification times
this is the file's index in the newest-first order; rank `≥ max_files`
is exactly "beyond the `max_files` most recent". -/
def mtimeRank {α : Type} (key : α → Nat) (files : List α) (f : α) : Nat :=
  (files.filter (fun g => key f < key g)).length

/-! ## `CrashLogger.capture_crash_logs` (src/logger.py lines 64–104) and
`CrashLogger._write_json_file` (lines 229–240)

`capture_crash_logs` names the artifact `crash_{timestamp}.log` with
`timestamp = datetime.now().strftime("%Y%m%d_%H%M%S")` — a format that is
a bijection between capture times at one-second resolution and names, so
the artifact store is keyed here by the capture second itself.  The store
is the `crash_*.log` listing of the crash-log directory: an association
list from capture second to stored report, each entry's modification time
being its capture second.  `aiofiles.open(file_path, 'w')` truncates an
existing file, so a write to an existing key replaces that entry in
place; otherwise it appends a new entry.

Failure modelling, following the `try`/`except` blocks of the source:
* `_get_crash_logcat` catches its own errors and returns `[]`, so its
  result is just an input line list;
* `_write_json_file` catches any I/O error itself and returns nothing —
  flag `write_fails` makes the write have no effect on the store and
  lets execution continue;
* an exception escaping into `capture_crash_logs`'s own `try` block
  (e.g. a missing `config['app']['package_name']` key or a `status`
  without the expected attributes) lands in its `except` and returns
  `""` — flag `build_fails`;
* `_cleanup_old_logs` catches its own errors, and runs on the store
  after a successful or failed write.
-/

/-- The persisted crash report (`crash_report` dict of the source), with
the fields the claims touch. -/
structure CrashReport where
  timestamp : Nat
  package_name : String
  crash_type : String
  uptime_before_crash : Nat
  memory_usage : Rat
  pid : Option Nat
  logcat_lines : Nat
  crash_logs : List String
  deriving DecidableEq, Repr

/-- The crash-log directory: capture-second key ↦ stored report, in
creation order. -/
abbrev Store := List (Nat × CrashReport)

/-- `aiofiles.open(path, 'w')` + write: truncate-and-replace if the name
exists, create otherwise. -/
def storeWrite (store : Store) (sec : Nat) (report : CrashReport) : Store :=
  if (store.map Prod.fst).contains sec then
    store.map (fun e => if e.1 = sec then (sec, report) else e)
  else
    store ++ [(sec, report)]

/-- `crash_file.name`: `f"crash_{timestamp}.log"`, the timestamp printed
at one-second resolution. -/
def crashFileName (sec : Nat) : String :=
  "crash_" ++ Nat.repr sec ++ ".log"

/-- Retention configuration (`config['logging']`). -/
structure RetentionCfg where
  max_log_files : Nat
  retention_days : Nat

/-- The status argument of `capture_crash_logs`: the snapshot fields the
report copies. -/
structure StatusArg where
  uptime : Nat
  memory_mb : Rat
  pid : Option Nat

/-- Per-call inputs of `capture_crash_logs`: the capture second
(`datetime.now()` of this call), the line list `_get_crash_logcat`
produced (already `[]` on its own swallowed failure), and the two
failure flags described above. -/
structure CaptureEnv where
  nowSec : Nat
  crashLogcat : List String
  write_fails : Bool
  build_fails : Bool

/-- Embeds `CrashLogger.capture_crash_logs(status)`: returns the string
the call returns (artifact path, or `""` from the `except` branch) and
the crash-log directory after the call. -/
def captureCrashLogs (cfg : RetentionCfg) (pkg : String) (env : CaptureEnv)
    (status : StatusArg) (store : Store) : String × Store :=
  if env.build_fails then ("", store)
  else
    let logs := env.crashLogcat
    let report : CrashReport :=
      { timestamp := env.nowSec
        package_name := pkg
        crash_type := detectCrashType logs
        uptime_before_crash := status.uptime
        memory_usage := status.memory_mb
        pid := status.pid
        logcat_lines := logs.length
        crash_logs := if 100 < logs.length then logs.drop (logs.length - 100) else logs }
    let store1 := if env.write_fails then store else storeWrite store env.nowSec report
    let store2 := cleanupKept (fun e => e.1) store1
        cfg.max_log_files cfg.retention_days env.nowSec
    (crashFileName env.nowSec, store2)

/-! ## `CrashLogger.get_crash_statistics` (src/logger.py lines 275–310)

The function works on `list(self.crash_log_dir.glob("crash_*.log"))`.
`Path.glob` yields entries in the order the operating system enumerates
the directory — it does **not** sort; the listing is therefore an input
here, in enumeration order.  Reading a file is
`open` + `json.loads` + `data.get('crash_type', 'unknown')`; the inner
`except: continue` skips a file whose open or parse raises.  We model
each listed file's readable content as
`Option (Option String)`: `none` — opening or parsing raised (skipped);
`some none` — valid document without a `crash_type` key (counted under
the `.get` default `"unknown"`); `some (some t)` — `crash_type` `t`. -/

/-- One entry of the `crash_*.log` directory listing, as
`get_crash_statistics` consumes it. -/
structure ListedFile where
  name : String
  mtime : Nat
  parsed : Option (Option String)
  deriving DecidableEq, Repr

/-- One `crash_types[t] = crash_types.get(t, 0) + 1` update on the
insertion-ordered histogram dict. -/
def histBump : List (String × Nat) → String → List (String × Nat)
  | [], t => [(t, 1)]
  | e :: es, t => if e.1 = t then (t, e.2 + 1) :: es else e :: histBump es t

/-- Python's `l[-n:]`: the last `n` elements (all of them when
`l` is shorter). -/
def lastN {α : Type} (n : Nat) (l : List α) : List α :=
  l.drop (l.length - n)

/-- One iteration of the histogram loop: an unreadable file is skipped
(the source's `except: continue`), a readable one bumps the count of its
`crash_type` (default `"unknown"`). -/
def histStep (m : List (String × Nat)) (f : ListedFile) : List (String × Nat) :=
  match f.parsed with
  | none => m
  | some ct => histBump m (ct.getD "unknown")

/-- The crash-type histogram built over a run of listed files. -/
def histOver (files : List ListedFile) : List (String × Nat) :=
  files.foldl histStep []

/-- The dictionary `get_crash_statistics` returns. -/
structure CrashStats where
  total_crashes : Nat
  today_crashes : Nat
  recent_crash_types : List (String × Nat)
  oldest_log : Nat
  newest_log : Nat
  deriving DecidableEq, Repr

/-- Embeds `CrashLogger.get_crash_statistics()`: `files` is the
`crash_*.log` listing in directory-enumeration order, `today` the
`"%Y%m%d"` string of the current day (matched as a substring of the file
name, `today in f.name`). -/
def getCrashStatistics (files : List ListedFile) (today : String) : CrashStats :=
  { total_crashes := files.length
    today_crashes := (files.filter (fun f => hasSub f.name today)).length
    recent_crash_types := histOver (lastN 10 files)
    oldest_log :=
      match files.map ListedFile.mtime with
      | [] => 0
      | t :: ts => ts.foldl Nat.min t
    newest_log :=
      match files.map ListedFile.mtime with
      | [] => 0
      | t :: ts => ts.foldl Nat.max t }

/-- The histogram the spec describes: over the 10 most-recently-modified
artifacts (newest-first by `mtime`), skipping unreadable ones. -/
def specRecentHist (files : List ListedFile) : List (String × Nat) :=
  histOver ((sortDesc ListedFile.mtime files).take 10)

/-- Total number of observations a histogram counts. -/
def histTotal (m : List (String × Nat)) : Nat :=
  (m.map Prod.snd).sum

/-! ## `ProcessMonitor` and `AppStatus` (src/monitor.py)

The `AppStatus` dataclass (lines 18–35) declares
`timestamp: datetime = datetime.now()`.  Python evaluates a dataclass
field default once, when the `class` statement executes at module import;
every construction that omits `timestamp` receives that same value.  The
embedding therefore carries the import-time clock reading `importTime`
explicitly, and `AppStatus.classDefault importTime` is the translation of
the dataclass's default field values.

A subprocess result (`_run_command`, lines 167–192 — which catches its
own errors and degrades to returncode 1 with empty stdout) is a
`CmdResult` input. -/

/-- `subprocess.CompletedProcess` as consumed here: returncode and
decoded stdout. -/
structure CmdResult where
  returncode : Int
  stdout : String
  deriving DecidableEq, Repr

/-- The `AppStatus` dataclass. -/
structure AppStatus where
  running : Bool
  crashed : Bool
  pid : Option Nat
  uptime : Nat
  memory_mb : Rat
  timestamp : Nat
  deriving DecidableEq, Repr

/-- The dataclass defaults of `AppStatus`, `timestamp` being the single
`datetime.now()` read at class definition (module import). -/
def AppStatus.classDefault (importTime : Nat) : AppStatus :=
  { running := false
    crashed := false
    pid := none
    uptime := 0
    memory_mb := 0
    timestamp := importTime }

/-- The mutable session state of `ProcessMonitor`: `self.last_pid` and
`self.start_time` (initialised to `None` in `__init__`). -/
structure MonitorState where
  last_pid : Option Nat
  start_time : Option Nat
  deriving DecidableEq, Repr

/-- Does a line satisfy every condition under which the `VmRSS` scan of
`_get_memory_usage` accepts it: starts with `"VmRSS:"`, has a second
whitespace-separated field, and that field is all digits? -/
def vmrssAccepts (line : String) : Bool :=
  strStartsWith line "VmRSS:" &&
    (match (splitWs line).get? 1 with
     | some w => pyIsDigit w
     | none => false)

/-- The line scan of `_get_memory_usage` (src/monitor.py lines 155–161):
return the `kB` count of the first acceptable `VmRSS:` line; lines
failing any check are passed over. -/
def scanVmRSS : List String → Option Nat
  | [] => none
  | line :: rest =>
    if vmrssAccepts line then
      match (splitWs line).get? 1 with
      | some w => some (digitsVal w.data)
      | none => scanVmRSS rest
    else scanVmRSS rest

/-- Embeds `ProcessMonitor._get_memory_usage(pid)` given the result of
`adb shell cat /proc/{pid}/status`: on returncode 0 scan for a parsable
`VmRSS:` line and convert kB to MB; every failure path falls through to
`0.0`. -/
def getMemoryUsage (res : CmdResult) : Rat :=
  if res.returncode = 0 then
    match scanVmRSS (splitNl res.stdout) with
    | some kb => (kb : Rat) / 1024
    | none => 0
  else 0

/-- Embeds `ProcessMonitor._get_running_status(pid)` at one poll tick:
`now` is this tick's clock reading, `memRes` the subprocess result the
memory query of this tick returns.  A PID differing from `last_pid`
resets the session (`start_time = now`); uptime is `now - start_time`
(0 when `start_time` is unset); the snapshot carries this tick's
timestamp explicitly, all other omitted fields coming from the dataclass
defaults. -/
def getRunningStatus (importTime : Nat) (st : MonitorState) (pid now : Nat)
    (memRes : CmdResult) : MonitorState × AppStatus :=
  let st' := if st.last_pid ≠ some pid then
      { last_pid := some pid, start_time := some now } else st
  let uptime := match st'.start_time with
    | some t0 => now - t0
    | none => 0
  let memory_mb := getMemoryUsage memRes
  (st',
    { AppStatus.classDefault importTime with
        running := true
        pid := some pid
        uptime := uptime
        memory_mb := memory_mb
        timestamp := now })

/-- The PID extraction of `check_app_status` (src/monitor.py lines
72–73): `pids = result.stdout.strip().split('\n')`, then
`int(pids[0])` when the first entry is all digits, else `None` —
collapsed to `0`, which Python's `if pid:` treats identically. -/
def parsePid (stdout : String) : Nat :=
  match (splitNl (pyStrip stdout)).head? with
  | some p0 => if pyIsDigit p0 then digitsVal p0.data else 0
  | none => 0

/-- The observable outcome of the census lookup
(`adb shell pgrep -f {package}` via `_run_command`), plus the result the
`_check_recent_crash` delegate would report on the not-running path:
either an exception escapes `check_app_status`'s `try` block, or a
subprocess result is available. -/
inductive CensusInput where
  | raisesErr
  | result (res : CmdResult) (crashCheck : Bool)

/-- Embeds `ProcessMonitor.check_app_status()` at one poll tick.
Mirrors the source: a zero returncode with nonempty stripped stdout is
parsed (`stdout.strip().split('\n')`, first entry, `isdigit` else
`None`); Python's `if pid:` treats both `None` and a literal `0` PID as
not-running, so `None` is collapsed to `0` here; the not-running branch
consults the crash check; the `except` branch returns a
default-constructed `AppStatus()`. -/
def checkAppStatus (importTime : Nat) (st : MonitorState) (inp : CensusInput)
    (now : Nat) (memRes : CmdResult) : MonitorState × AppStatus :=
  match inp with
  | .raisesErr => (st, AppStatus.classDefault importTime)
  | .result res crashCheck =>
    if res.returncode = 0 ∧ pyStrip res.stdout ≠ "" then
      let pid := parsePid res.stdout
      if pid ≠ 0 then getRunningStatus importTime st pid now memRes
      else
        (st, { AppStatus.classDefault importTime with running := false, crashed := false })
    else
      (st, { AppStatus.classDefault importTime with running := false, crashed := crashCheck })

/-- A run of consecutive `running=true` evaluations all carrying the same
PID: each tick supplies its clock reading and its memory-query subprocess
result; the session state is threaded through. -/
def runConst (importTime pid : Nat) (st : MonitorState) :
    List (Nat × CmdResult) → List AppStatus
  | [] => []
  | (now, memRes) :: rest =>
    let r := getRunningStatus importTime st pid now memRes
    r.2 :: runConst importTime pid r.1 rest

/-! ## Theorems -/

/-- C1: classification by `_detect_crash_type` is deterministic (it is a
function) and total; it coincides on every input with first-match-wins
over the spec's ordered severity list (case-insensitive substring search
over the concatenated text); the empty input maps to `process_missing`;
every non-empty input maps to one of the seven non-`process_missing`
categories; and an input containing both `SIGABRT` and `FATAL EXCEPTION`
classifies as `fatal_exception`. -/
theorem detect_crash_type_first_match_severity :
    (∀ logs, detectCrashType logs = specClassify logs) ∧
    detectCrashType [] = "process_missing" ∧
    (∀ logs, logs ≠ [] →
      detectCrashType logs ∈
        ["fatal_exception", "anr", "oom", "native_crash", "abort", "killed", "unknown"]) ∧
    detectCrashType
      ["some line with SIGABRT", "E/AndroidRuntime: FATAL EXCEPTION: main"] =
      "fatal_exception" := by
  refine ⟨?_, rfl, ?_, by decide⟩
  · intro logs
    simp only [detectCrashType, specClassify, severityRules, firstMatch, evalCond]
  · intro logs h
    have he : logs.isEmpty = false := by
      cases logs with
      | nil => exact absurd rfl h
      | cons a as => rfl
    unfold detectCrashType
    rw [he]
    simp only [Bool.false_eq_true, if_false]
    split
    · simp
    · split
      · simp
      · split
        · simp
        · split
          · simp
          · split
            · simp
            · split <;> simp

/-- C1 witness: the totality conjunct applied at a concrete non-empty
input. -/
theorem detect_crash_type_first_match_severity_witness :
    detectCrashType ["unparseable diagnostic line"] ∈
      ["fatal_exception", "anr", "oom", "native_crash", "abort", "killed", "unknown"] :=
  detect_crash_type_first_match_severity.2.2.1
    ["unparseable diagnostic line"] (by decide)

/-! ### Retention-sweep lemmas (shared) -/

theorem insertDesc_perm {α : Type} (key : α → Nat) (x : α) (l : List α) :
    List.Perm (insertDesc key x l) (x :: l) := by
  induction l with
  | nil => simp [insertDesc]
  | cons y ys ih =>
    unfold insertDesc
    split
    · exact List.Perm.refl _
    · exact List.Perm.trans (ih.cons y) (List.Perm.swap x y ys)

theorem sortDesc_perm {α : Type} (key : α → Nat) (l : List α) :
    List.Perm (sortDesc key l) l := by
  induction l with
  | nil => exact List.Perm.refl _
  | cons x xs ih =>
    exact List.Perm.trans (insertDesc_perm key x _) (ih.cons x)

theorem mem_insertDesc {α : Type} (key : α → Nat) (x : α) (l : List α) (z : α) :
    z ∈ insertDesc key x l ↔ z = x ∨ z ∈ l := by
  rw [(insertDesc_perm key x l).mem_iff, List.mem_cons]

theorem insertDesc_sorted {α : Type} (key : α → Nat) (x : α) (l : List α)
    (h : l.Pairwise (fun a b => key b ≤ key a)) :
    (insertDesc key x l).Pairwise (fun a b => key b ≤ key a) := by
  induction l with
  | nil => simp [insertDesc]
  | cons y ys ih =>
    rcases List.pairwise_cons.mp h with ⟨hy, hys⟩
    unfold insertDesc
    split
    · rename_i hle
      refine List.pairwise_cons.mpr ⟨?_, h⟩
      intro z hz
      rcases List.mem_cons.mp hz with rfl | hz'
      · exact hle
      · exact le_trans (hy z hz') hle
    · rename_i hlt
      refine List.pairwise_cons.mpr ⟨?_, ih hys⟩
      intro z hz
      rcases (mem_insertDesc key x ys z).mp hz with rfl | hz'
      · exact le_of_not_le hlt
      · exact hy z hz'

theorem sortDesc_sorted {α : Type} (key : α → Nat) (l : List α) :
    (sortDesc key l).Pairwise (fun a b => key b ≤ key a) := by
  induction l with
  | nil => simp [sortDesc]
  | cons x xs ih => exact insertDesc_sorted key x _ ih

theorem mtimeRank_perm {α : Type} (key : α → Nat) {s t : List α}
    (h : List.Perm s t) (f : α) :
    mtimeRank key s f = mtimeRank key t f := by
  unfold mtimeRank
  exact (h.filter _).length_eq

theorem mtimeRank_cons {α : Type} (key : α → Nat) (x : α) (xs : List α) (f : α) :
    mtimeRank key (x :: xs) f =
      mtimeRank key xs f + (if key f < key x then 1 else 0) := by
  unfold mtimeRank
  rw [List.filter_cons]
  by_cases h : key f < key x <;> simp [h]

/-- In a newest-first list with pairwise-distinct keys, membership in
`drop k` says exactly that at least `k` elements have a larger key. -/
theorem mem_drop_iff_rank {α : Type} (key : α → Nat) :
    ∀ (s : List α), s.Pairwise (fun a b => key b ≤ key a) →
      s.Pairwise (fun a b => key a ≠ key b) →
      ∀ (k : Nat) (f : α), f ∈ s.drop k ↔ f ∈ s ∧ k ≤ mtimeRank key s f := by
  intro s
  induction s with
  | nil => intro _ _ k f; simp
  | cons x xs ih =>
    intro hsort hdist k f
    rcases List.pairwise_cons.mp hsort with ⟨hx, hsort'⟩
    rcases List.pairwise_cons.mp hdist with ⟨hd, hdist'⟩
    cases k with
    | zero => simp
    | succ k' =>
      rw [List.drop_succ_cons, mtimeRank_cons]
      by_cases hfx : f = x
      · subst hfx
        have hnot : f ∉ xs := fun hm => (hd f hm) rfl
        have hrank : mtimeRank key xs f = 0 := by
          unfold mtimeRank
          rw [List.length_eq_zero]
          rw [List.filter_eq_nil_iff]
          intro g hg
          simp only [decide_eq_true_eq]
          exact not_lt_of_le (hx g hg)
        constructor
        · intro hmem
          exact absurd (List.mem_of_mem_drop hmem) hnot
        · rintro ⟨-, hk⟩
          rw [hrank] at hk
          simp at hk
      · rw [ih hsort' hdist' k' f]
        by_cases hm : f ∈ xs
        · have h1 : key f ≤ key x := hx f hm
          have h2 : key x ≠ key f := hd f hm
          have h3 : key f < key x := lt_of_le_of_ne h1 (fun e => h2 e.symm)
          simp only [hm, true_and, List.mem_cons, hfx, false_or, if_pos h3]
          omega
        · simp only [hm, false_and, List.mem_cons, hfx, false_or, false_iff]

theorem nodup_of_key_distinct {α : Type} (key : α → Nat) (s : List α)
    (h : s.Pairwise (fun a b => key a ≠ key b)) : s.Nodup :=
  h.imp (fun hab he => hab (by rw [he]))

theorem mem_take_iff_rank {α : Type} (key : α → Nat) (s : List α)
    (hsort : s.Pairwise (fun a b => key b ≤ key a))
    (hdist : s.Pairwise (fun a b => key a ≠ key b))
    (k : Nat) (f : α) :
    f ∈ s.take k ↔ f ∈ s ∧ mtimeRank key s f < k := by
  have hnd : s.Nodup := nodup_of_key_distinct key s hdist
  have hsplit := List.take_append_drop k s
  constructor
  · intro ht
    have hf : f ∈ s := by
      rw [← hsplit]
      exact List.mem_append_left _ ht
    refine ⟨hf, ?_⟩
    by_contra hlt
    push_neg at hlt
    have hdmem : f ∈ s.drop k :=
      (mem_drop_iff_rank key s hsort hdist k f).mpr ⟨hf, hlt⟩
    have hnd2 : (s.take k ++ s.drop k).Nodup := by rw [hsplit]; exact hnd
    exact (List.nodup_append.mp hnd2).2.2 ht hdmem
  · rintro ⟨hf, hrk⟩
    have hsplit2 : f ∈ s.take k ∨ f ∈ s.drop k := by
      rw [← List.mem_append, hsplit]
      exact hf
    rcases hsplit2 with h | h
    · exact h
    · exfalso
      have := ((mem_drop_iff_rank key s hsort hdist k f).mp h).2
      omega

/-- Which files one `_cleanup_old_logs` sweep deletes, for a listing with
pairwise-distinct modification times: exactly those beyond the
`max_files` most recent (rank ≥ `max_files`) together with those older
than the retention cutoff. -/
theorem cleanupDeleted_mem_iff {α : Type} (key : α → Nat) (files : List α)
    (hdist : files.Pairwise (fun a b => key a ≠ key b))
    (mf rd now : Nat) (f : α) (hf : f ∈ files) :
    f ∈ cleanupDeleted key files mf rd now ↔
      mf ≤ mtimeRank key files f ∨ key f < cutoffTime now rd := by
  have hperm := sortDesc_perm key files
  have hsort := sortDesc_sorted key files
  have hdist' : (sortDesc key files).Pairwise (fun a b => key a ≠ key b) :=
    (List.Perm.pairwise_iff (fun {a b} h e => h e.symm) hperm).mpr hdist
  have hrk : mtimeRank key (sortDesc key files) f = mtimeRank key files f :=
    mtimeRank_perm key hperm f
  have hmem : f ∈ sortDesc key files := hperm.mem_iff.mpr hf
  simp only [cleanupDeleted, List.mem_append, List.mem_filter]
  rw [mem_drop_iff_rank key _ hsort hdist', mem_take_iff_rank key _ hsort hdist']
  simp only [hmem, true_and, hrk, decide_eq_true_eq]
  constructor
  · rintro (h | ⟨h1, h2⟩)
    · exact Or.inl h
    · exact Or.inr h2
  · rintro (h | h2)
    · exact Or.inl h
    · by_cases hr : mf ≤ mtimeRank key files f
      · exact Or.inl hr
      · exact Or.inr ⟨by omega, h2⟩

/-- C2: `_cleanup_old_logs` sorts the artifacts newest-first by
modification time (the sort is a permutation and is newest-first);
assuming distinct modification times, a listed artifact is deleted
exactly when it lies beyond the `max_files` most recent (at least
`max_files` artifacts are strictly newer) or its modification time lies
before `now - retention_days` — i.e. count-based deletion regardless of
age, then age-based deletion among the retained; and on the spec's
example (`max_files = 5`, 8 artifacts, `retention_days = 30`, all within
30 days) exactly the 3 oldest are deleted and exactly 5 remain. -/
theorem cleanup_old_logs_retention :
    (∀ (files : List ArtifactFile),
        List.Perm (sortDesc ArtifactFile.mtime files) files ∧
        (sortDesc ArtifactFile.mtime files).Pairwise
          (fun a b => b.mtime ≤ a.mtime)) ∧
    (∀ (files : List ArtifactFile) (mf rd now : Nat) (f : ArtifactFile),
        files.Pairwise (fun a b => a.mtime ≠ b.mtime) → f ∈ files →
        (f ∈ cleanupDeleted ArtifactFile.mtime files mf rd now ↔
          mf ≤ mtimeRank ArtifactFile.mtime files f ∨
            f.mtime < cutoffTime now rd)) ∧
    (cleanupDeleted ArtifactFile.mtime
        [⟨"f1", 9999901⟩, ⟨"f2", 9999905⟩, ⟨"f3", 9999903⟩, ⟨"f4", 9999908⟩,
         ⟨"f5", 9999902⟩, ⟨"f6", 9999907⟩, ⟨"f7", 9999904⟩, ⟨"f8", 9999906⟩]
        5 30 10000000 =
        [⟨"f3", 9999903⟩, ⟨"f5", 9999902⟩, ⟨"f1", 9999901⟩] ∧
      (cleanupKept ArtifactFile.mtime
        [⟨"f1", 9999901⟩, ⟨"f2", 9999905⟩, ⟨"f3", 9999903⟩, ⟨"f4", 9999908⟩,
         ⟨"f5", 9999902⟩, ⟨"f6", 9999907⟩, ⟨"f7", 9999904⟩, ⟨"f8", 9999906⟩]
        5 30 10000000).length = 5) := by
  refine ⟨?_, ?_, by decide⟩
  · intro files
    exact ⟨sortDesc_perm _ files, sortDesc_sorted _ files⟩
  · intro files mf rd now f hdist hf
    exact cleanupDeleted_mem_iff _ files hdist mf rd now f hf

/-- C2 witness: the deletion characterization applied at a concrete
two-file listing — the older file is beyond `max_files = 1` and is
deleted. -/
theorem cleanup_old_logs_retention_witness :
    (⟨"b", 3⟩ ∈ cleanupDeleted ArtifactFile.mtime [⟨"a", 5⟩, ⟨"b", 3⟩] 1 1 10 ↔
      1 ≤ mtimeRank ArtifactFile.mtime [⟨"a", 5⟩, ⟨"b", 3⟩] ⟨"b", 3⟩ ∨
        (⟨"b", 3⟩ : ArtifactFile).mtime < cutoffTime 10 1) :=
  cleanup_old_logs_retention.2.1 [⟨"a", 5⟩, ⟨"b", 3⟩] 1 1 10 ⟨"b", 3⟩
    (by decide) (by decide)

/-! ### Capture (C3, C4) -/

/-- C3 counterexample: two back-to-back `capture_crash_logs` calls whose
`datetime.now()` readings fall in the same second (here 1000000) derive
the same `crash_{timestamp}.log` name; the second `'w'`-mode write
truncates and replaces the first artifact, so exactly one persisted
artifact results — not two as the claim states. -/
theorem capture_same_second_overwrites :
    (captureCrashLogs ⟨10, 30⟩ "com.example.app" ⟨1000000, [], false, false⟩
        ⟨5, 0, some 42⟩
        (captureCrashLogs ⟨10, 30⟩ "com.example.app" ⟨1000000, [], false, false⟩
          ⟨5, 0, some 42⟩ []).2).2.length = 1 := by decide

/-- C3 (amended): two back-to-back `capture_crash_logs` calls whose
capture timestamps differ at one-second resolution produce two distinct
persisted artifacts — no implicit deduplication — provided the retention
sweep retains both (`max_files ≥ 2`, both within `retention_days`); with
equal capture seconds the derived file name collides and the second
write replaces the first artifact. -/
theorem capture_distinct_seconds_two_artifacts :
    ∀ (cfg : RetentionCfg) (pkg : String) (e1 e2 : CaptureEnv)
      (s1 s2 : StatusArg),
      e1.build_fails = false → e1.write_fails = false →
      e2.build_fails = false → e2.write_fails = false →
      e1.nowSec < e2.nowSec →
      2 ≤ cfg.max_log_files →
      cutoffTime e2.nowSec cfg.retention_days ≤ e1.nowSec →
      ((captureCrashLogs cfg pkg e2 s2
          (captureCrashLogs cfg pkg e1 s1 []).2).2.map Prod.fst) =
        [e2.nowSec, e1.nowSec] := by
  rintro ⟨mf, rd⟩ pkg ⟨t1, L1, w1, b1⟩ ⟨t2, L2, w2, b2⟩ s1 s2 hb1 hw1 hb2 hw2 hlt hmf hcut
  simp only at hb1 hw1 hb2 hw2 hlt hmf hcut
  subst hb1 hw1 hb2 hw2
  unfold cutoffTime at hcut
  have h1 : ¬ (t1 < t1 - rd * 86400) := by omega
  have h2 : ¬ (t1 < t2 - rd * 86400) := by omega
  have h3 : ¬ (t2 < t2 - rd * 86400) := by omega
  have h4 : ¬ (t2 ≤ t1) := by omega
  have h5 : (t1 == t2) = false := by simp; omega
  have h6 : ¬ (t2 = t1) := by omega
  have h7 : ¬ (t1 = t2) := by omega
  have hf1 : t2 ≤ t1 + rd * 86400 := by omega
  have hf2 : t2 ≤ t2 + rd * 86400 := by omega
  have htake1 : ∀ (r : CrashReport), List.take mf [(t1, r)] = [(t1, r)] :=
    fun r => List.take_of_length_le (by simp; omega)
  have htake2 : ∀ (r1 r2 : CrashReport),
      List.take mf [(t2, r2), (t1, r1)] = [(t2, r2), (t1, r1)] :=
    fun r1 r2 => List.take_of_length_le (by simp; omega)
  simp [captureCrashLogs, storeWrite, cleanupKept, sortDesc, insertDesc,
    cutoffTime, h1, h2, h3, h4, h5, h6, h7, hf1, hf2, htake1, htake2]

/-- C3 witness: the amended theorem at concrete capture seconds 100000
and 100001. -/
theorem capture_distinct_seconds_two_artifacts_witness :
    ((captureCrashLogs ⟨5, 30⟩ "p" ⟨100001, [], false, false⟩ ⟨0, 0, none⟩
        (captureCrashLogs ⟨5, 30⟩ "p" ⟨100000, [], false, false⟩
          ⟨0, 0, none⟩ []).2).2.map Prod.fst) = [100001, 100000] :=
  capture_distinct_seconds_two_artifacts ⟨5, 30⟩ "p" ⟨100000, [], false, false⟩
    ⟨100001, [], false, false⟩ ⟨0, 0, none⟩ ⟨0, 0, none⟩ rfl rfl rfl rfl
    (by decide) (by decide) (by decide)

/-- C4 counterexample: when writing the artifact file fails
(`write_fails = true`), `_write_json_file` swallows the error itself;
`capture_crash_logs` continues, persists nothing (the directory stays
empty), and still returns the artifact path `"crash_1000.log"` — not the
empty sentinel the claim states. -/
theorem capture_write_failure_still_returns_path :
    (captureCrashLogs ⟨5, 30⟩ "p" ⟨1000, [], true, false⟩ ⟨0, 0, none⟩ []).1 =
      "crash_1000.log" ∧
    (captureCrashLogs ⟨5, 30⟩ "p" ⟨1000, [], true, false⟩ ⟨0, 0, none⟩ []).2 = [] ∧
    "crash_1000.log" ≠ "" := by decide

/-- C4 (amended): `capture_crash_logs` never raises to the caller; it
returns the empty sentinel exactly when an exception escapes into its
own `try` block (e.g. malformed config or status object), and on an
artifact-write I/O failure — swallowed inside `_write_json_file` — it
still returns the artifact path while the store is merely swept, with
nothing new persisted. -/
theorem capture_sentinel_only_for_escaping_errors :
    ∀ (cfg : RetentionCfg) (pkg : String) (env : CaptureEnv)
      (status : StatusArg) (store : Store),
      (captureCrashLogs cfg pkg env status store).1 =
        (if env.build_fails then "" else crashFileName env.nowSec) ∧
      (env.build_fails = false → env.write_fails = true →
        (captureCrashLogs cfg pkg env status store).2 =
          cleanupKept (fun e => e.1) store cfg.max_log_files
            cfg.retention_days env.nowSec) := by
  rintro ⟨mf, rd⟩ pkg ⟨t, L, w, b⟩ status store
  constructor
  · cases b <;> simp [captureCrashLogs]
  · intro hb hw
    simp only at hb hw
    subst hb hw
    simp [captureCrashLogs]

/-- C4 witness: the write-failure conjunct at a concrete call. -/
theorem capture_sentinel_only_for_escaping_errors_witness :
    (captureCrashLogs ⟨5, 30⟩ "p" ⟨1000, ["line"], true, false⟩
        ⟨0, 0, none⟩ []).2 = cleanupKept (fun e => e.1) [] 5 30 1000 :=
  (capture_sentinel_only_for_escaping_errors ⟨5, 30⟩ "p"
    ⟨1000, ["line"], true, false⟩ ⟨0, 0, none⟩ []).2 rfl rfl

/-! ### Statistics (C5) -/

theorem histTotal_bump (m : List (String × Nat)) (t : String) :
    histTotal (histBump m t) = histTotal m + 1 := by
  induction m with
  | nil => rfl
  | cons e es ih =>
    unfold histBump
    split
    · simp [histTotal]
      omega
    · simp only [histTotal, List.map_cons, List.sum_cons] at ih ⊢
      omega

theorem histTotal_foldl :
    ∀ (files : List ListedFile) (m : List (String × Nat)),
      histTotal (files.foldl histStep m) =
        histTotal m + files.countP (fun f => f.parsed.isSome) := by
  intro files
  induction files with
  | nil => intro m; simp
  | cons f fs ih =>
    intro m
    rw [List.foldl_cons, ih, List.countP_cons]
    unfold histStep
    cases hp : f.parsed with
    | none => simp [hp]
    | some ct =>
      simp [hp, histTotal_bump]
      omega

/-- C5 counterexample: `get_crash_statistics` slices `log_files[-10:]`
from the *unsorted* `glob` listing.  On an 11-file listing whose first
entry (in enumeration order) is the most recently modified, that entry is
excluded from the histogram even though it is among the 10
most-recently-modified artifacts: the code's histogram differs from the
histogram over the 10 newest by `mtime`. -/
theorem stats_hist_not_most_recent :
    (getCrashStatistics
        [⟨"crash_a.log", 100, some (some "oom")⟩,
         ⟨"c1", 1, some (some "unknown")⟩, ⟨"c2", 2, some (some "unknown")⟩,
         ⟨"c3", 3, some (some "unknown")⟩, ⟨"c4", 4, some (some "unknown")⟩,
         ⟨"c5", 5, some (some "unknown")⟩, ⟨"c6", 6, some (some "unknown")⟩,
         ⟨"c7", 7, some (some "unknown")⟩, ⟨"c8", 8, some (some "unknown")⟩,
         ⟨"c9", 9, some (some "unknown")⟩, ⟨"c10", 10, some (some "unknown")⟩]
        "20991231").recent_crash_types = [("unknown", 10)] ∧
    specRecentHist
        [⟨"crash_a.log", 100, some (some "oom")⟩,
         ⟨"c1", 1, some (some "unknown")⟩, ⟨"c2", 2, some (some "unknown")⟩,
         ⟨"c3", 3, some (some "unknown")⟩, ⟨"c4", 4, some (some "unknown")⟩,
         ⟨"c5", 5, some (some "unknown")⟩, ⟨"c6", 6, some (some "unknown")⟩,
         ⟨"c7", 7, some (some "unknown")⟩, ⟨"c8", 8, some (some "unknown")⟩,
         ⟨"c9", 9, some (some "unknown")⟩, ⟨"c10", 10, some (some "unknown")⟩] =
      [("oom", 1), ("unknown", 9)] ∧
    [("unknown", 10)] ≠ [("oom", 1), ("unknown", 9)] := by decide

/-- C5 (amended): `get_crash_statistics` builds its histogram over the
last 10 artifacts of the directory listing in enumeration order (not
necessarily the 10 most-recently-modified), skipping malformed or
unreadable artifacts silently — the histogram counts exactly the
readable entries among that slice, hence at most 10 — and returns zero
counts and no error on an empty artifact directory. -/
theorem stats_last_ten_listing_order :
    (∀ (today : String),
        getCrashStatistics [] today =
          { total_crashes := 0, today_crashes := 0, recent_crash_types := [],
            oldest_log := 0, newest_log := 0 }) ∧
    (∀ (files : List ListedFile) (today : String),
        (getCrashStatistics files today).recent_crash_types =
          histOver (lastN 10 files) ∧
        histTotal (getCrashStatistics files today).recent_crash_types =
          (lastN 10 files).countP (fun f => f.parsed.isSome) ∧
        histTotal (getCrashStatistics files today).recent_crash_types ≤ 10) := by
  refine ⟨fun today => rfl, fun files today => ⟨rfl, ?_, ?_⟩⟩
  · simp only [getCrashStatistics, histOver]
    rw [histTotal_foldl]
    simp [histTotal]
  · simp only [getCrashStatistics, histOver]
    rw [histTotal_foldl]
    have h1 : (lastN 10 files).countP (fun f => f.parsed.isSome) ≤
        (lastN 10 files).length := List.countP_le_length _
    have h2 : (lastN 10 files).length ≤ 10 := by
      unfold lastN
      rw [List.length_drop]
      omega
    simp only [histTotal, List.map_nil, List.sum_nil]
    omega

/-! ### Monitor (C6–C10) -/

/-- C6: a PID differing from the tracker's stored PID (including the
initial no-PID state) resets the session: `start_time` becomes this
tick's `now` and the snapshot's uptime is `now - now = 0`.  Concretely,
across two consecutive `running=true` `check_app_status` evaluations
(census PIDs 123 then 456), the second snapshot's uptime is 0. -/
theorem pid_change_resets_uptime :
    (∀ (importTime : Nat) (st : MonitorState) (pid now : Nat) (memRes : CmdResult),
        st.last_pid ≠ some pid →
        (getRunningStatus importTime st pid now memRes).2.uptime = 0 ∧
        (getRunningStatus importTime st pid now memRes).1 =
          ⟨some pid, some now⟩) ∧
    ((checkAppStatus 0 ((checkAppStatus 0 ⟨none, none⟩
          (.result ⟨0, "123"⟩ false) 50 ⟨1, ""⟩).1)
        (.result ⟨0, "456"⟩ false) 60 ⟨1, ""⟩).2.uptime = 0 ∧
     (checkAppStatus 0 ⟨none, none⟩
        (.result ⟨0, "123"⟩ false) 50 ⟨1, ""⟩).2.running = true ∧
     (checkAppStatus 0 ((checkAppStatus 0 ⟨none, none⟩
          (.result ⟨0, "123"⟩ false) 50 ⟨1, ""⟩).1)
        (.result ⟨0, "456"⟩ false) 60 ⟨1, ""⟩).2.running = true) := by
  constructor
  · intro importTime st pid now memRes h
    simp [getRunningStatus, h]
  · exact ⟨by decide, by decide, by decide⟩

/-- C6 witness: the reset conjunct at a concrete state change (stored
PID 1, observed PID 3). -/
theorem pid_change_resets_uptime_witness :
    (getRunningStatus 0 ⟨some 1, some 2⟩ 3 9 ⟨1, ""⟩).2.uptime = 0 ∧
    (getRunningStatus 0 ⟨some 1, some 2⟩ 3 9 ⟨1, ""⟩).1 = ⟨some 3, some 9⟩ :=
  pid_change_resets_uptime.1 0 ⟨some 1, some 2⟩ 3 9 ⟨1, ""⟩ (by decide)

/-- A run of same-PID evaluations from a tracked session
(`last_pid = pid`, `start_time = t0`): every snapshot is running with
uptime `now - t0` and the memory queried at that tick. -/
theorem runConst_steady (importTime pid t0 : Nat) :
    ∀ (ticks : List (Nat × CmdResult)),
      runConst importTime pid ⟨some pid, some t0⟩ ticks =
        ticks.map (fun tk =>
          { AppStatus.classDefault importTime with
              running := true, pid := some pid, uptime := tk.1 - t0,
              memory_mb := getMemoryUsage tk.2, timestamp := tk.1 }) := by
  intro ticks
  induction ticks with
  | nil => rfl
  | cons tk rest ih =>
    obtain ⟨n, m⟩ := tk
    simp [runConst, getRunningStatus, ih]

/-- Same-PID evaluations from the degenerate state with a tracked PID
but no `start_time`: uptime stays 0 (the `if self.start_time else 0`
fallback). -/
theorem runConst_no_start (importTime pid : Nat) :
    ∀ (ticks : List (Nat × CmdResult)),
      runConst importTime pid ⟨some pid, none⟩ ticks =
        ticks.map (fun tk =>
          { AppStatus.classDefault importTime with
              running := true, pid := some pid, uptime := 0,
              memory_mb := getMemoryUsage tk.2, timestamp := tk.1 }) := by
  intro ticks
  induction ticks with
  | nil => rfl
  | cons tk rest ih =>
    obtain ⟨n, m⟩ := tk
    simp [runConst, getRunningStatus, ih]

/-- C7: over any sequence of census results carrying the same constant
PID, from any tracker state, with non-decreasing clock readings, the
successive snapshots' `uptime` values are non-decreasing; and every
`running=true` evaluation queries memory — each snapshot's `memory_mb`
is the value of this tick's memory query. -/
theorem const_pid_uptime_monotone :
    ∀ (importTime pid : Nat) (st : MonitorState) (ticks : List (Nat × CmdResult)),
      List.Chain' (fun a b => a.1 ≤ b.1) ticks →
      List.Chain' (fun a b => a ≤ b)
        ((runConst importTime pid st ticks).map AppStatus.uptime) ∧
      List.Forall₂
        (fun tk out => out.running = true ∧ out.memory_mb = getMemoryUsage tk.2)
        ticks (runConst importTime pid st ticks) := by
  intro importTime pid st ticks hchain
  obtain ⟨lp, stt⟩ := st
  by_cases hlp : lp = some pid
  · subst hlp
    cases stt with
    | some t0 =>
      rw [runConst_steady]
      constructor
      · rw [List.map_map, List.chain'_map]
        exact hchain.imp (fun a b h => Nat.sub_le_sub_right h t0)
      · rw [List.forall₂_map_right_iff]
        exact List.forall₂_same.mpr (fun tk _ => ⟨rfl, rfl⟩)
    | none =>
      rw [runConst_no_start]
      constructor
      · rw [List.map_map, List.chain'_map]
        exact hchain.imp (fun a b h => le_refl 0)
      · rw [List.forall₂_map_right_iff]
        exact List.forall₂_same.mpr (fun tk _ => ⟨rfl, rfl⟩)
  · cases ticks with
    | nil => exact ⟨List.chain'_nil, List.Forall₂.nil⟩
    | cons tk rest =>
      obtain ⟨n, m⟩ := tk
      have hstep : runConst importTime pid ⟨lp, stt⟩ ((n, m) :: rest) =
          ({ AppStatus.classDefault importTime with
              running := true, pid := some pid, uptime := n - n,
              memory_mb := getMemoryUsage m, timestamp := n }) ::
            runConst importTime pid ⟨some pid, some n⟩ rest := by
        simp [runConst, getRunningStatus, hlp]
      rw [hstep, runConst_steady]
      constructor
      · rw [List.map_cons, List.map_map]
        rw [List.chain'_cons']
        constructor
        · intro y hy
          simp [Nat.sub_self]
        · rw [List.chain'_map]
          exact hchain.tail.imp (fun a b h => Nat.sub_le_sub_right h n)
      · exact List.Forall₂.cons ⟨rfl, rfl⟩
          ((List.forall₂_map_right_iff).mpr
            (List.forall₂_same.mpr (fun tk _ => ⟨rfl, rfl⟩)))

/-- C7 witness: the monotonicity and memory conjunction at a concrete
two-tick run with constant PID 9. -/
theorem const_pid_uptime_monotone_witness :
    List.Chain' (fun a b => a ≤ b)
      ((runConst 0 9 ⟨none, none⟩
        [(5, ⟨1, ""⟩), (7, ⟨1, ""⟩)]).map AppStatus.uptime) ∧
    List.Forall₂
      (fun tk out => out.running = true ∧ out.memory_mb = getMemoryUsage tk.2)
      [(5, ⟨1, ""⟩), (7, ⟨1, ""⟩)]
      (runConst 0 9 ⟨none, none⟩ [(5, ⟨1, ""⟩), (7, ⟨1, ""⟩)]) :=
  const_pid_uptime_monotone 0 9 ⟨none, none⟩ [(5, ⟨1, ""⟩), (7, ⟨1, ""⟩)]
    (List.chain'_cons.mpr ⟨by norm_num, List.chain'_singleton _⟩)

/-- C8: in every snapshot `check_app_status` produces, `crashed` and
`running` are never both true (every running snapshot carries the
dataclass default `crashed = False`; every not-running branch sets
`running = False`); and both can simultaneously be false, as on the
concrete clean-stop input with a non-zero census returncode and a
negative crash check. -/
theorem crashed_running_exclusive :
    (∀ (importTime : Nat) (st : MonitorState) (inp : CensusInput) (now : Nat)
        (memRes : CmdResult),
        ((checkAppStatus importTime st inp now memRes).2.crashed &&
          (checkAppStatus importTime st inp now memRes).2.running) = false) ∧
    ((checkAppStatus 0 ⟨none, none⟩ (.result ⟨1, ""⟩ false) 5 ⟨1, ""⟩).2.running
        = false ∧
     (checkAppStatus 0 ⟨none, none⟩ (.result ⟨1, ""⟩ false) 5 ⟨1, ""⟩).2.crashed
        = false) := by
  constructor
  · intro importTime st inp now memRes
    cases inp with
    | raisesErr => rfl
    | result res crashCheck =>
      simp only [checkAppStatus]
      split
      · split
        · simp [getRunningStatus, AppStatus.classDefault]
        · simp [AppStatus.classDefault]
      · simp [AppStatus.classDefault]
  · exact ⟨by decide, by decide⟩

theorem scanVmRSS_none :
    ∀ (lines : List String), (∀ line ∈ lines, vmrssAccepts line = false) →
      scanVmRSS lines = none := by
  intro lines
  induction lines with
  | nil => intro _; rfl
  | cons line rest ih =>
    intro h
    have h0 : vmrssAccepts line = false := h line (List.mem_cons_self line rest)
    unfold scanVmRSS
    rw [h0]
    simp only [Bool.false_eq_true, if_false]
    exact ih (fun l hl => h l (List.mem_cons_of_mem line hl))

theorem getMemoryUsage_zero (res : CmdResult)
    (h : res.returncode ≠ 0 ∨
      ∀ line ∈ splitNl res.stdout, vmrssAccepts line = false) :
    getMemoryUsage res = 0 := by
  rcases h with h | h
  · unfold getMemoryUsage
    rw [if_neg h]
  · unfold getMemoryUsage
    split
    · rw [scanVmRSS_none _ h]
    · rfl

/-- C9: expected failures degrade to defaults, never to an error. When
the memory query for a running PID fails (non-zero returncode) or its
output has no parsable `VmRSS` line, `memory_mb` is substituted with 0
and the snapshot is still produced with `running = true`; and when no
matching process exists (census returncode non-zero or blank stdout) a
not-running snapshot is returned rather than an error. -/
theorem memory_failure_defaults :
    (∀ (importTime : Nat) (st : MonitorState) (pid now : Nat)
        (memRes : CmdResult),
        (memRes.returncode ≠ 0 ∨
          ∀ line ∈ splitNl memRes.stdout, vmrssAccepts line = false) →
        (getRunningStatus importTime st pid now memRes).2.memory_mb = 0 ∧
        (getRunningStatus importTime st pid now memRes).2.running = true) ∧
    (∀ (importTime : Nat) (st : MonitorState) (res : CmdResult)
        (crashCheck : Bool) (now : Nat) (memRes : CmdResult),
        ¬ (res.returncode = 0 ∧ pyStrip res.stdout ≠ "") →
        (checkAppStatus importTime st (.result res crashCheck) now memRes).2 =
          { AppStatus.classDefault importTime with crashed := crashCheck }) := by
  constructor
  · intro importTime st pid now memRes h
    constructor
    · simp [getRunningStatus, getMemoryUsage_zero memRes h]
    · simp [getRunningStatus]
  · intro importTime st res crashCheck now memRes h
    simp only [checkAppStatus, if_neg h]
    rfl

/-- C9 witness: a failed memory query (`returncode 1`) at a running
evaluation yields `memory_mb = 0` with `running = true`. -/
theorem memory_failure_defaults_witness :
    (getRunningStatus 0 ⟨none, none⟩ 4 9 ⟨1, "query failed"⟩).2.memory_mb = 0 ∧
    (getRunningStatus 0 ⟨none, none⟩ 4 9 ⟨1, "query failed"⟩).2.running = true :=
  memory_failure_defaults.1 0 ⟨none, none⟩ 4 9 ⟨1, "query failed"⟩
    (Or.inl (by decide))

/-- C10: the `AppStatus` dataclass evaluates its `timestamp` default once
at class definition (module import); every snapshot `check_app_status`
builds without an explicit timestamp — the `except`-branch `AppStatus()`
and both not-running constructions, i.e. exactly the `running = false`
snapshots — carries that import-time value as its timestamp, not this
observation's clock reading. -/
theorem default_timestamp_import_time :
    ∀ (importTime : Nat) (st : MonitorState) (inp : CensusInput) (now : Nat)
      (memRes : CmdResult),
      (checkAppStatus importTime st inp now memRes).2.running = false →
      (checkAppStatus importTime st inp now memRes).2.timestamp = importTime := by
  intro importTime st inp now memRes
  cases inp with
  | raisesErr => intro _; rfl
  | result res crashCheck =>
    intro h
    by_cases h1 : res.returncode = 0 ∧ pyStrip res.stdout ≠ ""
    · by_cases h2 : parsePid res.stdout ≠ 0
      · exfalso
        simp only [checkAppStatus, if_pos h1, if_pos h2] at h
        simp [getRunningStatus] at h
      · simp only [checkAppStatus, if_pos h1, if_neg h2]
        rfl
    · simp only [checkAppStatus, if_neg h1]
      rfl

/-- C10 witness: the census-failure snapshot at import time 7, observed
at clock reading 99, carries timestamp 7. -/
theorem default_timestamp_import_time_witness :
    (checkAppStatus 7 ⟨none, none⟩ .raisesErr 99 ⟨1, ""⟩).2.timestamp = 7 :=
  default_timestamp_import_time 7 ⟨none, none⟩ .raisesErr 99 ⟨1, ""⟩ (by decide)

end ISGGuardian
